import Mathlib

/-- A JavaScript runtime value, as far as the engine distinguishes them.
`errorObj msg` is an object that satisfies `instanceof Error`; all other
constructors are values for which `instanceof Error` is false. -/
inductive JsValue where
  | undef
  | num (n : Int)
  | str (s : String)
  | boolean (b : Bool)
  | errorObj (msg : String)
deriving DecidableEq

/-- The outcome of invoking a provider member function with a fixed argument
list: a synchronous non-thenable return, a synchronous throw, or a returned
thenable that eventually resolves or rejects.  `dur` is the wall-clock
duration (ms) from just before the invocation until the outcome settles; it
is part of the environment, and the dispatch engine in
`src/failover-provider.js` never reads it (it contains no timing code). -/
inductive CallOutcome where
  | retSync (v : JsValue) (dur : Nat)
  | throwSync (e : JsValue) (dur : Nat)
  | resolveAsync (v : JsValue) (dur : Nat)
  | rejectAsync (e : JsValue) (dur : Nat)
deriving DecidableEq

/-- A member of a provider object, as observed by
`Reflect.get(target.provider, p, receiver)`:
a non-function data property, a function (its behaviour given by the
argument list), or a lookup that itself throws (e.g. a throwing getter). -/
inductive Member where
  | value (v : JsValue)
  | func (f : List JsValue → CallOutcome)
  | getterThrow (e : JsValue)

/-- A provider entry as built by `addProvider`:
`{ id: uid(), provider, ms: 0 }`. -/
structure Entry where
  id : String
  provider : String → Member
  ms : Nat

instance : Inhabited Member := ⟨Member.value JsValue.undef⟩

/-- Placeholder entry for out-of-bounds list reads.  In JavaScript an
out-of-bounds `this._providers[this._activeProvider]` would be `undefined`
and crash on `.id`; that is unreachable under the registry invariant
(claim C8), and every theorem below that reads the list carries the
in-bounds hypothesis. -/
def defaultEntry : Entry := ⟨"", fun _ => Member.value JsValue.undef, 0⟩

instance : Inhabited Entry := ⟨defaultEntry⟩

/-- The state of a `FailoverProvider` instance: the four fields set up by the
constructor (`_retries`, `_shouldRetryOn`, `_activeProvider`, `_providers`). -/
structure FailoverProviderState where
  retries : Nat
  shouldRetryOn : JsValue → Bool
  activeProvider : Nat
  providers : List Entry

/-- The default retry policy from the constructor:
`(error) => error instanceof Error`. -/
def defaultShouldRetryOn (error : JsValue) : Bool :=
  match error with
  | JsValue.errorObj _ => true
  | _ => false

/-- The constructor
`constructor ({ retries = 3, shouldRetryOn = (error) => error instanceof Error } = {})`:
sets `_retries`, `_shouldRetryOn`, `_activeProvider = 0`, `_providers = []`.
The defaults are `3` and `defaultShouldRetryOn`. -/
def newFailoverProvider (retries : Nat) (shouldRetryOn : JsValue → Bool) :
    FailoverProviderState :=
  ⟨retries, shouldRetryOn, 0, []⟩

/-- One pass of the `while (id.length < len)` loop of `uid`.  The ambient
randomness is modelled by `draws`, the stream of values produced by
`Math.round(Math.random() * 10)` (each in `0..10`); each iteration appends
the decimal rendering of the next draw.  A finite stream models finitely
many iterations; every theorem below only needs the result as an opaque
generated string. -/
def uidGo : List Nat → String → Nat → String
  | [], id, _ => id
  | d :: rest, id, len =>
    if id.length < len then uidGo rest (id ++ toString d) len else id

/-- `uid (len = 12)`: throws when `len < 1 || len > 256`, otherwise builds the
identifier by the loop above.  `draws` models the `Math.random()` stream. -/
def uid (draws : List Nat) (len : Nat) : Except JsValue String :=
  if len < 1 ∨ len > 256 then
    Except.error (JsValue.errorObj
      "The UID length must be between 1 and 256 characters.")
  else
    Except.ok (uidGo draws "" len)

/-- The JavaScript value returned by a call to `addProvider`.  The source
returns `this` (the `FailoverProvider` instance, enabling chaining); the
spec's registry contract instead claims the fresh entry id string is
returned, so both shapes are representable in order to compare them. -/
inductive RegisterRet where
  | self (s : FailoverProviderState)
  | idString (id : String)
  | threw (e : JsValue)

/-- `addProvider (provider)`:
`this._providers.push({ id: uid(), provider, ms: 0 }); return this`.
`uid()` is called with its default length 12; `draws` is the ambient
random stream consumed by that call. -/
def addProvider (s : FailoverProviderState) (draws : List Nat)
    (provider : String → Member) : FailoverProviderState × RegisterRet :=
  match uid draws 12 with
  | Except.error e => (s, RegisterRet.threw e)
  | Except.ok newId =>
    let s' : FailoverProviderState :=
      { s with providers := s.providers ++ [⟨newId, provider, 0⟩] }
    (s', RegisterRet.self s')

/-- `initialize ()`: throws the configuration error when `_providers` is
empty, otherwise returns the composite `Proxy` wrapping the first registered
provider.  The proxy carries no state of its own: its `get` trap is
`this._proxy(this._providers[this._activeProvider], p, receiver)`, embedded
below as `compositeGet`/`compositeCall`; the value carried here is the proxy
target, the first provider. -/
def mkComposite (s : FailoverProviderState) :
    Except JsValue (String → Member) :=
  match s.providers with
  | [] => Except.error (JsValue.errorObj
      "Cannot initialize an empty provider. Call `addProvider` before this function.")
  | e :: _ => Except.ok e.provider

/-- `_switch (failedProvider)`:
advances `_activeProvider` by one modulo `_providers.length` only when
`failedProvider.id === this._providers[this._activeProvider].id`, and
returns `this._providers[this._activeProvider]` afterwards. -/
def _switch (s : FailoverProviderState) (failedProvider : Entry) :
    FailoverProviderState × Entry :=
  let s' : FailoverProviderState :=
    if failedProvider.id = (s.providers.getD s.activeProvider defaultEntry).id
    then { s with
            activeProvider := (s.activeProvider + 1) % s.providers.length }
    else s
  (s', s'.providers.getD s'.activeProvider defaultEntry)

/-- The result, observed by the caller of the `get` trap, of
`_proxy(target, p, receiver, retries)` before any invocation happens:
a non-function property value returned directly, the closure the source
returns for a function member (capturing the target entry, the resolved
function and the current budget), or a thrown lookup error. -/
inductive ProxyResult where
  | value (v : JsValue)
  | callable (target : Entry) (f : List JsValue → CallOutcome) (retries : Nat)
  | thrown (e : JsValue)

/-- The member-access phase of `_proxy(target, p, receiver, retries)`:

```
try {
  prop = Reflect.get(target.provider, p, receiver)
  if (typeof prop !== 'function') return prop
} catch (er) {
  if (retries <= 0 || !this._shouldRetryOn(er)) throw er
  const provider = this._switch(target)
  return this._proxy(provider, p, receiver, retries - 1)
}
return (...args) => { ... }
```

The returned closure is represented by `ProxyResult.callable`; its body is
embedded by `_proxyCall` below.  `receiver` does not appear: its only role
is as the `this` of getters, which the `Member` behaviour map absorbs.
The budget is a `Nat`, so the source's `retries <= 0` test is a test for
`0`; the definition therefore splits on the budget at the top level (the
two non-failure arms coincide in both cases). -/
def _proxyGet : Nat → FailoverProviderState → Entry → String →
    FailoverProviderState × ProxyResult
  | 0, s, target, p =>
    match target.provider p with
    | Member.value v => (s, ProxyResult.value v)
    | Member.func f => (s, ProxyResult.callable target f 0)
    | Member.getterThrow er => (s, ProxyResult.thrown er)
  | r + 1, s, target, p =>
    match target.provider p with
    | Member.value v => (s, ProxyResult.value v)
    | Member.func f => (s, ProxyResult.callable target f (r + 1))
    | Member.getterThrow er =>
      if s.shouldRetryOn er then
        let sw := _switch s target
        _proxyGet r sw.1 sw.2 p
      else (s, ProxyResult.thrown er)

/-- The caller-visible settlement of one logical call through the composite:
either the successful value (returned directly or through the resolution of
the returned thenable), or the error ultimately thrown or rejected. -/
inductive CallSettlement where
  | success (v : JsValue)
  | failure (e : JsValue)
deriving DecidableEq

/-- Ghost record of one attempt during a dispatch: which entry was targeted
and what happened there.  `invoked o` records an invocation of the resolved
member function with the original argument list and its outcome;
`lookupThrew e` records a member lookup that itself threw;
`resolvedValue v` records a lookup resolving to a non-function value,
returned without invocation.  The source records no such trace; it exists
solely so the attempt-count and last-error claims can be stated. -/
inductive AttemptOutcome where
  | invoked (o : CallOutcome)
  | lookupThrew (e : JsValue)
  | resolvedValue (v : JsValue)
deriving DecidableEq

/-- Ghost attempt record: the id of the entry attempted and the outcome. -/
structure Attempt where
  entryId : String
  outcome : AttemptOutcome
deriving DecidableEq

/-- The error an attempt raised, if it raised one. -/
def Attempt.errOf : Attempt → Option JsValue
  | ⟨_, AttemptOutcome.invoked (CallOutcome.throwSync e _)⟩ => some e
  | ⟨_, AttemptOutcome.invoked (CallOutcome.rejectAsync e _)⟩ => some e
  | ⟨_, AttemptOutcome.lookupThrew e⟩ => some e
  | _ => none

/-- Result of a full logical call: the final engine state, the caller-visible
settlement, and the ghost list of attempts in order. -/
structure DispatchResult where
  state : FailoverProviderState
  settlement : CallSettlement
  attempts : List Attempt

/-- One logical call through `_proxy`: member lookup on `target` followed, if
the member is a function, by invoking it — i.e. `_proxy(target, p, receiver,
retries)` composed with calling the returned closure on `args`.  Each arm
mirrors the source:

* a non-function member is returned directly (`return prop`; after a
  failover this is the `if (typeof property === 'function') ... return
  property` edge, which abandons the call and yields the value);
* a lookup throw is handled by the `catch` around `Reflect.get`:
  rethrown when `retries <= 0 || !this._shouldRetryOn(er)`, otherwise
  `_switch` then recurse with `retries - 1`;
* a synchronous non-thenable return settles the call (`if (!re?.then)
  return re`);
* a synchronous throw is handled by the closure's `catch`, and an eventual
  rejection by the `.catch` continuation — both with the identical
  rethrow-or-switch-and-recurse body, re-invoking with the same original
  `args` (`property.apply(this, args)`);
* an eventual resolution settles the call through
  `.then((re) => re)`.

The budget argument decreases by exactly one at each failover level, so the
recursion is structural in `retries`; since the budget is a `Nat`, the
source's `retries <= 0` test is a test for `0` and the definition splits on
the budget at the top level (the non-failure arms coincide in both cases).
The ghost `attempts` trace collects one record per level. -/
def _proxyCall : Nat → FailoverProviderState → Entry → String →
    List JsValue → DispatchResult
  | 0, s, target, p, args =>
    match target.provider p with
    | Member.value v =>
      ⟨s, CallSettlement.success v, [⟨target.id, AttemptOutcome.resolvedValue v⟩]⟩
    | Member.getterThrow er =>
      ⟨s, CallSettlement.failure er, [⟨target.id, AttemptOutcome.lookupThrew er⟩]⟩
    | Member.func f =>
      match f args with
      | CallOutcome.retSync v d =>
        ⟨s, CallSettlement.success v,
          [⟨target.id, AttemptOutcome.invoked (CallOutcome.retSync v d)⟩]⟩
      | CallOutcome.resolveAsync v d =>
        ⟨s, CallSettlement.success v,
          [⟨target.id, AttemptOutcome.invoked (CallOutcome.resolveAsync v d)⟩]⟩
      | CallOutcome.throwSync er d =>
        ⟨s, CallSettlement.failure er,
          [⟨target.id, AttemptOutcome.invoked (CallOutcome.throwSync er d)⟩]⟩
      | CallOutcome.rejectAsync er d =>
        ⟨s, CallSettlement.failure er,
          [⟨target.id, AttemptOutcome.invoked (CallOutcome.rejectAsync er d)⟩]⟩
  | r + 1, s, target, p, args =>
    match target.provider p with
    | Member.value v =>
      ⟨s, CallSettlement.success v, [⟨target.id, AttemptOutcome.resolvedValue v⟩]⟩
    | Member.getterThrow er =>
      if s.shouldRetryOn er then
        let sw := _switch s target
        let rest := _proxyCall r sw.1 sw.2 p args
        ⟨rest.state, rest.settlement,
          ⟨target.id, AttemptOutcome.lookupThrew er⟩ :: rest.attempts⟩
      else
        ⟨s, CallSettlement.failure er, [⟨target.id, AttemptOutcome.lookupThrew er⟩]⟩
    | Member.func f =>
      match f args with
      | CallOutcome.retSync v d =>
        ⟨s, CallSettlement.success v,
          [⟨target.id, AttemptOutcome.invoked (CallOutcome.retSync v d)⟩]⟩
      | CallOutcome.resolveAsync v d =>
        ⟨s, CallSettlement.success v,
          [⟨target.id, AttemptOutcome.invoked (CallOutcome.resolveAsync v d)⟩]⟩
      | CallOutcome.throwSync er d =>
        if s.shouldRetryOn er then
          let sw := _switch s target
          let rest := _proxyCall r sw.1 sw.2 p args
          ⟨rest.state, rest.settlement,
            ⟨target.id, AttemptOutcome.invoked (CallOutcome.throwSync er d)⟩ ::
              rest.attempts⟩
        else
          ⟨s, CallSettlement.failure er,
            [⟨target.id, AttemptOutcome.invoked (CallOutcome.throwSync er d)⟩]⟩
      | CallOutcome.rejectAsync er d =>
        if s.shouldRetryOn er then
          let sw := _switch s target
          let rest := _proxyCall r sw.1 sw.2 p args
          ⟨rest.state, rest.settlement,
            ⟨target.id, AttemptOutcome.invoked (CallOutcome.rejectAsync er d)⟩ ::
              rest.attempts⟩
        else
          ⟨s, CallSettlement.failure er,
            [⟨target.id, AttemptOutcome.invoked (CallOutcome.rejectAsync er d)⟩]⟩

/-- A member access on the composite: the `get` trap of the proxy built by
`initialize` runs
`this._proxy(this._providers[this._activeProvider], p, receiver)` with the
default budget `this._retries`. -/
def compositeGet (s : FailoverProviderState) (p : String) :
    FailoverProviderState × ProxyResult :=
  _proxyGet s.retries s (s.providers.getD s.activeProvider defaultEntry) p

/-- A full logical call on the composite: the `get` trap resolves member `p`
starting from the active entry with budget `this._retries`, and the caller
invokes the result with `args`. -/
def compositeCall (s : FailoverProviderState) (p : String)
    (args : List JsValue) : DispatchResult :=
  _proxyCall s.retries s (s.providers.getD s.activeProvider defaultEntry) p args

/-- Entry `en`'s member `p` is a function whose invocation with `args` fails
(by synchronous throw or asynchronous rejection) with an error the policy
`pol` classifies as retryable.  Only the behaviour at `args` is constrained:
theorems using this hypothesis therefore witness that retried invocations
receive the same original argument list. -/
def failsRetryablyOn (pol : JsValue → Bool) (en : Entry) (p : String)
    (args : List JsValue) : Prop :=
  ∃ f, en.provider p = Member.func f ∧
    ((∃ e d, f args = CallOutcome.throwSync e d ∧ pol e = true) ∨
     (∃ e d, f args = CallOutcome.rejectAsync e d ∧ pol e = true))

/-- Entry `en`'s member `p` is a function whose invocation with `args`
succeeds (synchronously or asynchronously) with value `v`. -/
def succeedsWith (en : Entry) (p : String) (args : List JsValue)
    (v : JsValue) : Prop :=
  ∃ f, en.provider p = Member.func f ∧
    ((∃ d, f args = CallOutcome.retSync v d) ∨
     (∃ d, f args = CallOutcome.resolveAsync v d))

/-- Two entries are access-equivalent at `(p, args)`: same identifier, and
their members at `p` either coincide, or the left one is a throwing getter
whose error the right one instead throws synchronously when invoked with
`args` (a failing property getter versus a failing method). -/
def accessEquiv (p : String) (args : List JsValue) (en en' : Entry) : Prop :=
  en.id = en'.id ∧
    (en.provider p = en'.provider p ∨
      ∃ e f d, en.provider p = Member.getterThrow e ∧
        en'.provider p = Member.func f ∧ f args = CallOutcome.throwSync e d)

/-- States reachable by the engine's own operations: construction,
registration, and dispatch through the composite.  Dispatch happens only
through the composite object, which `initialize` produces only for a
non-empty registry; since the registry is append-only, every dispatch step
is guarded by non-emptiness. -/
inductive Reachable : FailoverProviderState → Prop where
  | construct (retries : Nat) (pol : JsValue → Bool) :
      Reachable (newFailoverProvider retries pol)
  | register (s : FailoverProviderState) (draws : List Nat)
      (provider : String → Member) :
      Reachable s → Reachable (addProvider s draws provider).1
  | dispatchCall (s : FailoverProviderState) (p : String)
      (args : List JsValue) :
      Reachable s → s.providers ≠ [] → Reachable (compositeCall s p args).state
  | dispatchAccess (s : FailoverProviderState) (p : String) :
      Reachable s → s.providers ≠ [] → Reachable (compositeGet s p).1

/-! ## Concrete providers and states for witnesses and counterexamples -/

/-- A provider whose `syncSpeak` method always throws `Error("boom")`,
settling after 5 ms. -/
def boomProvider : String → Member := fun p =>
  if p = "syncSpeak" then
    Member.func (fun _ => CallOutcome.throwSync (JsValue.errorObj "boom") 5)
  else Member.value JsValue.undef

/-- A provider whose `syncSpeak` method returns `"woof"` after 3 ms and
whose `name` property is the plain value `"Dog"`. -/
def dogProvider : String → Member := fun p =>
  if p = "syncSpeak" then
    Member.func (fun _ => CallOutcome.retSync (JsValue.str "woof") 3)
  else if p = "name" then Member.value (JsValue.str "Dog")
  else Member.value JsValue.undef

/-- A provider whose `name` member is a getter that throws `Error("boom")`. -/
def getterBoomProvider : String → Member := fun p =>
  if p = "name" then Member.getterThrow (JsValue.errorObj "boom")
  else Member.value JsValue.undef

/-- A provider whose `name` member is a method that throws `Error("boom")`
when invoked, settling after 2 ms. -/
def methodBoomProvider : String → Member := fun p =>
  if p = "name" then
    Member.func (fun _ => CallOutcome.throwSync (JsValue.errorObj "boom") 2)
  else Member.value JsValue.undef

/-- A provider whose `speak` method throws the plain string `"boom"` — a
value that is not an `instanceof Error`. -/
def stringThrowProvider : String → Member := fun p =>
  if p = "speak" then
    Member.func (fun _ => CallOutcome.throwSync (JsValue.str "boom") 4)
  else Member.value JsValue.undef

/-- A provider whose `syncSpeak` method returns `"meow"`, with the attempt
settling after a measured 7 ms. -/
def catProvider : String → Member := fun p =>
  if p = "syncSpeak" then
    Member.func (fun _ => CallOutcome.retSync (JsValue.str "meow") 7)
  else Member.value JsValue.undef

/-- Registry for the C1 witness: a failing provider then a healthy one. -/
def C1state : FailoverProviderState :=
  ⟨3, defaultShouldRetryOn, 0, [⟨"a", boomProvider, 0⟩, ⟨"b", dogProvider, 0⟩]⟩

/-- Registry for the C2 witness: two failing providers ahead of a healthy
one, with only one retry configured, so the call exhausts its budget. -/
def C2state : FailoverProviderState :=
  ⟨1, defaultShouldRetryOn, 0,
    [⟨"a", boomProvider, 0⟩, ⟨"a2", boomProvider, 0⟩, ⟨"b", dogProvider, 0⟩]⟩

/-- Registry for the C3 witness. -/
def C3state : FailoverProviderState :=
  ⟨3, defaultShouldRetryOn, 0, [⟨"a", boomProvider, 0⟩, ⟨"b", dogProvider, 0⟩]⟩

/-- The failed-entry argument used in the C3 witness: the entry at the
active index of `C3state`. -/
def C3failed : Entry := ⟨"a", boomProvider, 0⟩

/-- Registry with a throwing `name` getter ahead of a healthy provider. -/
def C4stateGetter : FailoverProviderState :=
  ⟨3, defaultShouldRetryOn, 0,
    [⟨"g", getterBoomProvider, 0⟩, ⟨"b", dogProvider, 0⟩]⟩

/-- Same registry with the throwing getter replaced by an equally-failing
method. -/
def C4stateMethod : FailoverProviderState :=
  ⟨3, defaultShouldRetryOn, 0,
    [⟨"g", methodBoomProvider, 0⟩, ⟨"b", dogProvider, 0⟩]⟩

/-- The target entries of the C4 witness. -/
def C4targetGetter : Entry := ⟨"g", getterBoomProvider, 0⟩

def C4targetMethod : Entry := ⟨"g", methodBoomProvider, 0⟩

/-- Registry for the C5 counterexample: the first provider throws a plain
string, a healthy provider waits right behind, and three retries remain. -/
def C5state : FailoverProviderState :=
  ⟨3, defaultShouldRetryOn, 0,
    [⟨"s", stringThrowProvider, 0⟩, ⟨"b", dogProvider, 0⟩]⟩

/-- Registry for the C6 counterexample: one provider whose `syncSpeak`
attempt completes successfully with a measured duration of 7 ms. -/
def C6state : FailoverProviderState :=
  ⟨3, defaultShouldRetryOn, 0, [⟨"c", catProvider, 0⟩]⟩

/-- Discriminator for the value registration returns: is it an entry-id
string (as the spec's registry contract claims)? -/
def RegisterRet.isIdString : RegisterRet → Bool
  | RegisterRet.idString _ => true
  | _ => false

/-- State and random stream for the C7 counterexample. -/
def C7state : FailoverProviderState := newFailoverProvider 3 defaultShouldRetryOn

def C7draws : List Nat := [1, 2, 3, 4, 5, 6, 7, 8, 9, 0, 1, 2]

/-- Concrete reachable state for the C8 witness: a construction, two
registrations and one dispatched call. -/
def C8state : FailoverProviderState :=
  (compositeCall
    (addProvider (addProvider (newFailoverProvider 3 defaultShouldRetryOn)
      [1, 2] boomProvider).1 [3, 4] dogProvider).1 "syncSpeak" []).state

/-- Whether producing the composite succeeded. -/
def mkCompositeOk (s : FailoverProviderState) : Bool :=
  match mkComposite s with
  | Except.ok _ => true
  | Except.error _ => false

/-- Registry for the C9 witness. -/
def C9state : FailoverProviderState :=
  ⟨3, defaultShouldRetryOn, 0, [⟨"a", boomProvider, 0⟩]⟩

/-- Registry for the C10 witness: two healthy providers. -/
def C10state : FailoverProviderState :=
  ⟨3, defaultShouldRetryOn, 0, [⟨"c", catProvider, 0⟩, ⟨"b", dogProvider, 0⟩]⟩

/-! ## Theorems -/

/-- `_switch` never touches the provider list, the configured budget or the
policy: only `_activeProvider` may change. -/
theorem _switch_frame (s : FailoverProviderState) (t : Entry) :
    (_switch s t).1.providers = s.providers ∧
    (_switch s t).1.retries = s.retries ∧
    (_switch s t).1.shouldRetryOn = s.shouldRetryOn := by
  unfold _switch
  split <;> simp

/-- `_switch` keeps the active index in bounds. -/
theorem _switch_active_lt (s : FailoverProviderState) (t : Entry)
    (h : s.activeProvider < s.providers.length) :
    (_switch s t).1.activeProvider < (_switch s t).1.providers.length := by
  unfold _switch
  split <;> simp
  · exact Nat.mod_lt _ (Nat.lt_of_le_of_lt (Nat.zero_le _) h)
  · exact h

/-- The entry `_switch` returns is the entry at the updated active index. -/
theorem _switch_returns_current (s : FailoverProviderState) (t : Entry) :
    (_switch s t).2 =
      (_switch s t).1.providers.getD (_switch s t).1.activeProvider defaultEntry := rfl

/-- `_proxyCall` never touches the provider list, the configured budget or
the policy: only `_activeProvider` may change. -/
theorem _proxyCall_frame (r : Nat) (s : FailoverProviderState) (t : Entry)
    (p : String) (args : List JsValue) :
    (_proxyCall r s t p args).state.providers = s.providers ∧
    (_proxyCall r s t p args).state.retries = s.retries ∧
    (_proxyCall r s t p args).state.shouldRetryOn = s.shouldRetryOn := by
  induction r generalizing s t with
  | zero =>
    unfold _proxyCall
    split
    · simp
    · simp
    · split <;> simp
  | succ r ih =>
    unfold _proxyCall
    split
    · simp
    · split
      · have hsw := _switch_frame s t
        have h := ih (_switch s t).1 (_switch s t).2
        simp only []
        exact ⟨h.1.trans hsw.1, h.2.1.trans hsw.2.1, h.2.2.trans hsw.2.2⟩
      · simp
    · split
      · simp
      · simp
      · split
        · have hsw := _switch_frame s t
          have h := ih (_switch s t).1 (_switch s t).2
          exact ⟨h.1.trans hsw.1, h.2.1.trans hsw.2.1, h.2.2.trans hsw.2.2⟩
        · simp
      · split
        · have hsw := _switch_frame s t
          have h := ih (_switch s t).1 (_switch s t).2
          exact ⟨h.1.trans hsw.1, h.2.1.trans hsw.2.1, h.2.2.trans hsw.2.2⟩
        · simp

/-- `_proxyCall` keeps the active index in bounds. -/
theorem _proxyCall_active_lt (r : Nat) (s : FailoverProviderState) (t : Entry)
    (p : String) (args : List JsValue)
    (h : s.activeProvider < s.providers.length) :
    (_proxyCall r s t p args).state.activeProvider <
      (_proxyCall r s t p args).state.providers.length := by
  induction r generalizing s t with
  | zero =>
    unfold _proxyCall
    split
    · simpa using h
    · simpa using h
    · split <;> simpa using h
  | succ r ih =>
    unfold _proxyCall
    split
    · simpa using h
    · split
      · exact ih (_switch s t).1 (_switch s t).2 (_switch_active_lt s t h)
      · simpa using h
    · split
      · simpa using h
      · simpa using h
      · split
        · exact ih (_switch s t).1 (_switch s t).2 (_switch_active_lt s t h)
        · simpa using h
      · split
        · exact ih (_switch s t).1 (_switch s t).2 (_switch_active_lt s t h)
        · simpa using h

/-- `_proxyGet` never touches the provider list, the configured budget or
the policy. -/
theorem _proxyGet_frame (r : Nat) (s : FailoverProviderState) (t : Entry)
    (p : String) :
    (_proxyGet r s t p).1.providers = s.providers ∧
    (_proxyGet r s t p).1.retries = s.retries ∧
    (_proxyGet r s t p).1.shouldRetryOn = s.shouldRetryOn := by
  induction r generalizing s t with
  | zero =>
    unfold _proxyGet
    split <;> simp
  | succ r ih =>
    unfold _proxyGet
    split
    · simp
    · simp
    · split
      · have hsw := _switch_frame s t
        have h := ih (_switch s t).1 (_switch s t).2
        exact ⟨h.1.trans hsw.1, h.2.1.trans hsw.2.1, h.2.2.trans hsw.2.2⟩
      · simp

/-- `_proxyGet` keeps the active index in bounds. -/
theorem _proxyGet_active_lt (r : Nat) (s : FailoverProviderState) (t : Entry)
    (p : String) (h : s.activeProvider < s.providers.length) :
    (_proxyGet r s t p).1.activeProvider <
      (_proxyGet r s t p).1.providers.length := by
  induction r generalizing s t with
  | zero =>
    unfold _proxyGet
    split <;> simpa using h
  | succ r ih =>
    unfold _proxyGet
    split
    · simpa using h
    · simpa using h
    · split
      · exact ih (_switch s t).1 (_switch s t).2 (_switch_active_lt s t h)
      · simpa using h

/-- Every level of `_proxyCall` records exactly one attempt, so a dispatch
with starting budget `r` performs at most `1 + r` attempts. -/
theorem _proxyCall_attempts_length (r : Nat) (s : FailoverProviderState)
    (t : Entry) (p : String) (args : List JsValue) :
    (_proxyCall r s t p args).attempts.length ≤ 1 + r := by
  induction r generalizing s t with
  | zero =>
    unfold _proxyCall
    split
    · simp
    · simp
    · split <;> simp
  | succ r ih =>
    unfold _proxyCall
    split
    · simp
    · split
      · have h := ih (_switch s t).1 (_switch s t).2
        simp only [List.length_cons]
        omega
      · simp
    · split
      · simp
      · simp
      · split
        · have h := ih (_switch s t).1 (_switch s t).2
          simp only [List.length_cons]
          omega
        · simp
      · split
        · have h := ih (_switch s t).1 (_switch s t).2
          simp only [List.length_cons]
          omega
        · simp

/-- When a dispatch settles with an error, that error is exactly the error
raised by the last recorded attempt — never an error of a provider that was
not attempted, and never a synthesised one. -/
theorem _proxyCall_failure_last (r : Nat) (s : FailoverProviderState)
    (t : Entry) (p : String) (args : List JsValue) (e : JsValue)
    (hf : (_proxyCall r s t p args).settlement = CallSettlement.failure e) :
    ∃ pre a, (_proxyCall r s t p args).attempts = pre ++ [a] ∧
      a.errOf = some e := by
  induction r generalizing s t with
  | zero =>
    cases hm : t.provider p with
    | value v =>
      unfold _proxyCall at hf
      simp [hm] at hf
    | getterThrow er =>
      unfold _proxyCall at hf ⊢
      simp only [hm] at hf ⊢
      simp at hf
      exact ⟨[], ⟨t.id, AttemptOutcome.lookupThrew er⟩, by simp,
        by simp [Attempt.errOf, hf]⟩
    | func f =>
      cases ho : f args with
      | retSync v d =>
        unfold _proxyCall at hf
        simp [hm, ho] at hf
      | resolveAsync v d =>
        unfold _proxyCall at hf
        simp [hm, ho] at hf
      | throwSync er d =>
        unfold _proxyCall at hf ⊢
        simp only [hm, ho] at hf ⊢
        simp at hf
        exact ⟨[], ⟨t.id, AttemptOutcome.invoked (CallOutcome.throwSync er d)⟩,
          by simp, by simp [Attempt.errOf, hf]⟩
      | rejectAsync er d =>
        unfold _proxyCall at hf ⊢
        simp only [hm, ho] at hf ⊢
        simp at hf
        exact ⟨[], ⟨t.id, AttemptOutcome.invoked (CallOutcome.rejectAsync er d)⟩,
          by simp, by simp [Attempt.errOf, hf]⟩
  | succ r ih =>
    cases hm : t.provider p with
    | value v =>
      unfold _proxyCall at hf
      simp [hm] at hf
    | getterThrow er =>
      unfold _proxyCall at hf ⊢
      simp only [hm] at hf ⊢
      by_cases hpol : s.shouldRetryOn er = true
      · simp only [hpol, if_true] at hf ⊢
        obtain ⟨pre, a, ha, he⟩ := ih (_switch s t).1 (_switch s t).2 hf
        exact ⟨⟨t.id, AttemptOutcome.lookupThrew er⟩ :: pre, a, by simp [ha], he⟩
      · simp only [hpol, if_false, Bool.false_eq_true] at hf ⊢
        simp at hf
        exact ⟨[], ⟨t.id, AttemptOutcome.lookupThrew er⟩, by simp,
          by simp [Attempt.errOf, hf]⟩
    | func f =>
      cases ho : f args with
      | retSync v d =>
        unfold _proxyCall at hf
        simp [hm, ho] at hf
      | resolveAsync v d =>
        unfold _proxyCall at hf
        simp [hm, ho] at hf
      | throwSync er d =>
        unfold _proxyCall at hf ⊢
        simp only [hm, ho] at hf ⊢
        by_cases hpol : s.shouldRetryOn er = true
        · simp only [hpol, if_true] at hf ⊢
          obtain ⟨pre, a, ha, he⟩ := ih (_switch s t).1 (_switch s t).2 hf
          exact ⟨⟨t.id, AttemptOutcome.invoked (CallOutcome.throwSync er d)⟩ :: pre,
            a, by simp [ha], he⟩
        · simp only [hpol, if_false, Bool.false_eq_true] at hf ⊢
          simp at hf
          exact ⟨[], ⟨t.id, AttemptOutcome.invoked (CallOutcome.throwSync er d)⟩,
            by simp, by simp [Attempt.errOf, hf]⟩
      | rejectAsync er d =>
        unfold _proxyCall at hf ⊢
        simp only [hm, ho] at hf ⊢
        by_cases hpol : s.shouldRetryOn er = true
        · simp only [hpol, if_true] at hf ⊢
          obtain ⟨pre, a, ha, he⟩ := ih (_switch s t).1 (_switch s t).2 hf
          exact ⟨⟨t.id, AttemptOutcome.invoked (CallOutcome.rejectAsync er d)⟩ :: pre,
            a, by simp [ha], he⟩
        · simp only [hpol, if_false, Bool.false_eq_true] at hf ⊢
          simp at hf
          exact ⟨[], ⟨t.id, AttemptOutcome.invoked (CallOutcome.rejectAsync er d)⟩,
            by simp, by simp [Attempt.errOf, hf]⟩

/-- Failover chain: starting at active index `a`, if the entries at the `k`
successive active positions fail retryably on `args` and the entry `k`
positions further succeeds with `v`, then the dispatch with budget `r ≥ k`
settles with `v` and the active index ends exactly `k` positions further
(modulo the registry size). -/
theorem _proxyCall_chain (k : Nat) :
    ∀ (r a : Nat) (P : List Entry) (R : Nat) (pol : JsValue → Bool)
      (p : String) (args : List JsValue) (v : JsValue),
      a < P.length → k ≤ r →
      (∀ i, i < k →
        failsRetryablyOn pol (P.getD ((a + i) % P.length) defaultEntry) p args) →
      succeedsWith (P.getD ((a + k) % P.length) defaultEntry) p args v →
      (_proxyCall r ⟨R, pol, a, P⟩ (P.getD a defaultEntry) p args).state =
          ⟨R, pol, (a + k) % P.length, P⟩ ∧
      (_proxyCall r ⟨R, pol, a, P⟩ (P.getD a defaultEntry) p args).settlement =
          CallSettlement.success v := by
  induction k with
  | zero =>
    intro r a P R pol p args v ha _ _ hsucc
    simp only [Nat.add_zero, Nat.mod_eq_of_lt ha] at hsucc ⊢
    obtain ⟨f, hm, hout⟩ := hsucc
    cases r with
    | zero =>
      unfold _proxyCall
      simp only [hm]
      rcases hout with ⟨d, ho⟩ | ⟨d, ho⟩ <;> simp [ho]
    | succ r =>
      unfold _proxyCall
      simp only [hm]
      rcases hout with ⟨d, ho⟩ | ⟨d, ho⟩ <;> simp [ho]
  | succ k ihk =>
    intro r a P R pol p args v ha hk hfail hsucc
    have hlen : 0 < P.length := Nat.lt_of_le_of_lt (Nat.zero_le _) ha
    have h0 := hfail 0 (Nat.succ_pos k)
    simp only [Nat.add_zero, Nat.mod_eq_of_lt ha] at h0
    obtain ⟨f, hm, hout⟩ := h0
    cases r with
    | zero => omega
    | succ r =>
      have hswitch :
          _switch ⟨R, pol, a, P⟩ (P.getD a defaultEntry) =
            (⟨R, pol, (a + 1) % P.length, P⟩,
              P.getD ((a + 1) % P.length) defaultEntry) := by
        simp [_switch]
      have ha' : (a + 1) % P.length < P.length := Nat.mod_lt _ hlen
      have hfail' : ∀ i, i < k →
          failsRetryablyOn pol
            (P.getD (((a + 1) % P.length + i) % P.length) defaultEntry) p args := by
        intro i hi
        have h := hfail (i + 1) (by omega)
        have hidx : ((a + 1) % P.length + i) % P.length = (a + (i + 1)) % P.length := by
          rw [Nat.mod_add_mod]
          congr 1
          omega
        rw [hidx]
        exact h
      have hsucc' :
          succeedsWith (P.getD (((a + 1) % P.length + k) % P.length) defaultEntry)
            p args v := by
        have hidx : ((a + 1) % P.length + k) % P.length = (a + (k + 1)) % P.length := by
          rw [Nat.mod_add_mod]
          congr 1
          omega
        rw [hidx]
        exact hsucc
      have hrec := ihk r ((a + 1) % P.length) P R pol p args v ha' (by omega)
        hfail' hsucc'
      have hidx2 : ((a + 1) % P.length + k) % P.length = (a + (k + 1)) % P.length := by
        rw [Nat.mod_add_mod]
        congr 1
        omega
      rw [hidx2] at hrec
      rcases hout with ⟨e, d, ho, hpol⟩ | ⟨e, d, ho, hpol⟩ <;>
      · unfold _proxyCall
        simp only [hm, ho, hpol, if_true, hswitch]
        exact hrec

theorem accessEquiv_refl (p : String) (args : List JsValue) (en : Entry) :
    accessEquiv p args en en := ⟨rfl, Or.inl rfl⟩

/-- `getD` preserves a pointwise relation between two lists. -/
theorem forall₂_getD {R : Entry → Entry → Prop} {d d' : Entry} (hd : R d d') :
    ∀ {l l' : List Entry}, List.Forall₂ R l l' →
      ∀ i, R (l.getD i d) (l'.getD i d') := by
  intro l l' h
  induction h with
  | nil => intro i; simpa using hd
  | cons hx hrest ih =>
    intro i
    cases i with
    | zero => simpa using hx
    | succ i => simpa using ih i

/-- Explicit form of `_switch` when the failed entry is still active. -/
theorem _switch_eq_pos (s : FailoverProviderState) (t : Entry)
    (hc : t.id = (s.providers.getD s.activeProvider defaultEntry).id) :
    _switch s t =
      ({ s with activeProvider := (s.activeProvider + 1) % s.providers.length },
        s.providers.getD ((s.activeProvider + 1) % s.providers.length)
          defaultEntry) := by
  unfold _switch
  simp only [if_pos hc]

/-- Explicit form of `_switch` when the active entry is no longer the failed
one. -/
theorem _switch_eq_neg (s : FailoverProviderState) (t : Entry)
    (hc : ¬ t.id = (s.providers.getD s.activeProvider defaultEntry).id) :
    _switch s t = (s, s.providers.getD s.activeProvider defaultEntry) := by
  unfold _switch
  simp only [if_neg hc]

/-- `_switch` maps access-equivalent configurations to access-equivalent
configurations: with equal identifiers and pointwise-equivalent registries it
takes the same advance-or-keep decision on both sides and returns
access-equivalent entries. -/
theorem _switch_equiv (p : String) (args : List JsValue)
    (s s' : FailoverProviderState) (t t' : Entry)
    (hR : s.retries = s'.retries) (hpol : s.shouldRetryOn = s'.shouldRetryOn)
    (ha : s.activeProvider = s'.activeProvider)
    (hP : List.Forall₂ (accessEquiv p args) s.providers s'.providers)
    (hid : t.id = t'.id) :
    (_switch s t).1.retries = (_switch s' t').1.retries ∧
    (_switch s t).1.shouldRetryOn = (_switch s' t').1.shouldRetryOn ∧
    (_switch s t).1.activeProvider = (_switch s' t').1.activeProvider ∧
    List.Forall₂ (accessEquiv p args)
      (_switch s t).1.providers (_switch s' t').1.providers ∧
    accessEquiv p args (_switch s t).2 (_switch s' t').2 := by
  have hlen : s.providers.length = s'.providers.length := hP.length_eq
  have hcur :
      accessEquiv p args (s.providers.getD s.activeProvider defaultEntry)
        (s'.providers.getD s'.activeProvider defaultEntry) := by
    rw [← ha]
    exact forall₂_getD (accessEquiv_refl p args defaultEntry) hP s.activeProvider
  have hcid : (s.providers.getD s.activeProvider defaultEntry).id =
      (s'.providers.getD s'.activeProvider defaultEntry).id := hcur.1
  by_cases hc : t.id = (s.providers.getD s.activeProvider defaultEntry).id
  · have hc' : t'.id = (s'.providers.getD s'.activeProvider defaultEntry).id := by
      rw [← hid, ← hcid]; exact hc
    rw [_switch_eq_pos s t hc, _switch_eq_pos s' t' hc']
    refine ⟨hR, hpol, by simp [ha, hlen], by simpa using hP, ?_⟩
    have hix : (s.activeProvider + 1) % s.providers.length =
        (s'.activeProvider + 1) % s'.providers.length := by rw [ha, hlen]
    simp only []
    rw [hix]
    exact forall₂_getD (accessEquiv_refl p args defaultEntry) hP _
  · have hc' : ¬ t'.id = (s'.providers.getD s'.activeProvider defaultEntry).id := by
      rw [← hid, ← hcid]; exact hc
    rw [_switch_eq_neg s t hc, _switch_eq_neg s' t' hc']
    exact ⟨hR, hpol, ha, hP, hcur⟩

/-- Dispatch is invariant under replacing throwing getters by equally-failing
methods: on access-equivalent configurations, `_proxyCall` produces the same
settlement, the same final active index, and attempts the same sequence of
entry identifiers.  A failing property getter thus fails over identically to
a failing method. -/
theorem _proxyCall_accessEquiv (r : Nat) :
    ∀ (s s' : FailoverProviderState) (t t' : Entry) (p : String)
      (args : List JsValue),
      s.retries = s'.retries →
      s.shouldRetryOn = s'.shouldRetryOn →
      s.activeProvider = s'.activeProvider →
      List.Forall₂ (accessEquiv p args) s.providers s'.providers →
      accessEquiv p args t t' →
      (_proxyCall r s t p args).settlement =
        (_proxyCall r s' t' p args).settlement ∧
      (_proxyCall r s t p args).state.activeProvider =
        (_proxyCall r s' t' p args).state.activeProvider ∧
      (_proxyCall r s t p args).attempts.map Attempt.entryId =
        (_proxyCall r s' t' p args).attempts.map Attempt.entryId := by
  induction r with
  | zero =>
    intro s s' t t' p args hR hpol ha hP ht
    obtain ⟨hid, hmem | ⟨e, f, d, hmL, hmR, hfa⟩⟩ := ht
    · cases hm : t.provider p with
      | value v =>
        have hm' : t'.provider p = Member.value v := hmem.symm.trans hm
        unfold _proxyCall
        simp only [hm, hm']
        exact ⟨by simp, by simp [ha], by simp [hid]⟩
      | func f =>
        have hm' : t'.provider p = Member.func f := hmem.symm.trans hm
        cases ho : f args with
        | retSync v d =>
          unfold _proxyCall
          simp only [hm, hm', ho]
          exact ⟨by simp, by simp [ha], by simp [hid]⟩
        | resolveAsync v d =>
          unfold _proxyCall
          simp only [hm, hm', ho]
          exact ⟨by simp, by simp [ha], by simp [hid]⟩
        | throwSync e d =>
          unfold _proxyCall
          simp only [hm, hm', ho]
          exact ⟨by simp, by simp [ha], by simp [hid]⟩
        | rejectAsync e d =>
          unfold _proxyCall
          simp only [hm, hm', ho]
          exact ⟨by simp, by simp [ha], by simp [hid]⟩
      | getterThrow e =>
        have hm' : t'.provider p = Member.getterThrow e := hmem.symm.trans hm
        unfold _proxyCall
        simp only [hm, hm']
        exact ⟨by simp, by simp [ha], by simp [hid]⟩
    · unfold _proxyCall
      simp only [hmL, hmR, hfa]
      exact ⟨by simp, by simp [ha], by simp [hid]⟩
  | succ r ih =>
    intro s s' t t' p args hR hpol ha hP ht
    obtain ⟨hid, hmem | ⟨e, f, d, hmL, hmR, hfa⟩⟩ := ht
    · cases hm : t.provider p with
      | value v =>
        have hm' : t'.provider p = Member.value v := hmem.symm.trans hm
        unfold _proxyCall
        simp only [hm, hm']
        exact ⟨by simp, by simp [ha], by simp [hid]⟩
      | func f =>
        have hm' : t'.provider p = Member.func f := hmem.symm.trans hm
        cases ho : f args with
        | retSync v d =>
          unfold _proxyCall
          simp only [hm, hm', ho]
          exact ⟨by simp, by simp [ha], by simp [hid]⟩
        | resolveAsync v d =>
          unfold _proxyCall
          simp only [hm, hm', ho]
          exact ⟨by simp, by simp [ha], by simp [hid]⟩
        | throwSync e d =>
          unfold _proxyCall
          simp only [hm, hm', ho, hpol]
          by_cases hb : s'.shouldRetryOn e = true
          · simp only [hb, if_true]
            obtain ⟨sR, sPol, sAct, sP, sT⟩ :=
              _switch_equiv p args s s' t t' hR hpol ha hP hid
            obtain ⟨ih1, ih2, ih3⟩ := ih (_switch s t).1 (_switch s' t').1
              (_switch s t).2 (_switch s' t').2 p args sR sPol sAct sP sT
            exact ⟨ih1, ih2, by simp [hid, ih3]⟩
          · simp only [Bool.not_eq_true] at hb
            simp only [hb, Bool.false_eq_true, if_false]
            exact ⟨by simp, by simp [ha], by simp [hid]⟩
        | rejectAsync e d =>
          unfold _proxyCall
          simp only [hm, hm', ho, hpol]
          by_cases hb : s'.shouldRetryOn e = true
          · simp only [hb, if_true]
            obtain ⟨sR, sPol, sAct, sP, sT⟩ :=
              _switch_equiv p args s s' t t' hR hpol ha hP hid
            obtain ⟨ih1, ih2, ih3⟩ := ih (_switch s t).1 (_switch s' t').1
              (_switch s t).2 (_switch s' t').2 p args sR sPol sAct sP sT
            exact ⟨ih1, ih2, by simp [hid, ih3]⟩
          · simp only [Bool.not_eq_true] at hb
            simp only [hb, Bool.false_eq_true, if_false]
            exact ⟨by simp, by simp [ha], by simp [hid]⟩
      | getterThrow e =>
        have hm' : t'.provider p = Member.getterThrow e := hmem.symm.trans hm
        unfold _proxyCall
        simp only [hm, hm', hpol]
        by_cases hb : s'.shouldRetryOn e = true
        · simp only [hb, if_true]
          obtain ⟨sR, sPol, sAct, sP, sT⟩ :=
            _switch_equiv p args s s' t t' hR hpol ha hP hid
          obtain ⟨ih1, ih2, ih3⟩ := ih (_switch s t).1 (_switch s' t').1
            (_switch s t).2 (_switch s' t').2 p args sR sPol sAct sP sT
          exact ⟨ih1, ih2, by simp [hid, ih3]⟩
        · simp only [Bool.not_eq_true] at hb
          simp only [hb, Bool.false_eq_true, if_false]
          exact ⟨by simp, by simp [ha], by simp [hid]⟩
    · unfold _proxyCall
      simp only [hmL, hmR, hfa, hpol]
      by_cases hb : s'.shouldRetryOn e = true
      · simp only [hb, if_true]
        obtain ⟨sR, sPol, sAct, sP, sT⟩ :=
          _switch_equiv p args s s' t t' hR hpol ha hP hid
        obtain ⟨ih1, ih2, ih3⟩ := ih (_switch s t).1 (_switch s' t').1
          (_switch s t).2 (_switch s' t').2 p args sR sPol sAct sP sT
        exact ⟨ih1, ih2, by simp [hid, ih3]⟩
      · simp only [Bool.not_eq_true] at hb
        simp only [hb, Bool.false_eq_true, if_false]
        exact ⟨by simp, by simp [ha], by simp [hid]⟩

/-- Evaluated form of `addProvider`: `uid()`'s default length 12 passes the
range guard, so registration never throws; the fresh entry is appended and
the instance itself is returned. -/
theorem addProvider_eq (s : FailoverProviderState) (draws : List Nat)
    (provider : String → Member) :
    addProvider s draws provider =
      ({ s with providers := s.providers ++ [⟨uidGo draws "" 12, provider, 0⟩] },
        RegisterRet.self
          { s with providers := s.providers ++ [⟨uidGo draws "" 12, provider, 0⟩] }) := by
  unfold addProvider uid
  norm_num

/-- Strengthened invariant for the induction: in every reachable state the
active index is in bounds, or the registry is still empty and the index is
still the constructor's `0`. -/
theorem reachable_inv (s : FailoverProviderState) (h : Reachable s) :
    s.activeProvider < s.providers.length ∨
      (s.providers = [] ∧ s.activeProvider = 0) := by
  induction h with
  | construct retries pol => exact Or.inr ⟨rfl, rfl⟩
  | register s draws provider hs ih =>
    rw [addProvider_eq]
    rcases ih with hlt | ⟨hemp, hact⟩
    · left
      simp only [List.length_append, List.length_cons, List.length_nil]
      omega
    · left
      simp [hemp, hact]
  | dispatchCall s p args hs hne ih =>
    have hlt : s.activeProvider < s.providers.length := by
      rcases ih with hlt | ⟨hemp, _⟩
      · exact hlt
      · exact absurd hemp hne
    left
    unfold compositeCall
    exact _proxyCall_active_lt s.retries s
      (s.providers.getD s.activeProvider defaultEntry) p args hlt
  | dispatchAccess s p hs hne ih =>
    have hlt : s.activeProvider < s.providers.length := by
      rcases ih with hlt | ⟨hemp, _⟩
      · exact hlt
      · exact absurd hemp hne
    left
    unfold compositeGet
    exact _proxyGet_active_lt s.retries s
      (s.providers.getD s.activeProvider defaultEntry) p hlt

/-- C1: for a registry whose `k` successive active entries fail retryably on
the given arguments while the entry `k` positions further succeeds (`k <` the
registry size, `k ≤` the configured retries), the composite call settles with
that entry's success value, the active index advances by exactly `k`
positions (modulo the size), and the registry itself is unchanged.  The
failure and success hypotheses constrain the providers' behaviour only at
the original argument list `args`, so the conclusion also witnesses that
every retried invocation received the same original arguments. -/
theorem C1_failover_chain_success (s : FailoverProviderState) (p : String)
    (args : List JsValue) (k : Nat) (v : JsValue)
    (ha : s.activeProvider < s.providers.length)
    (hk : k < s.providers.length)
    (hr : k ≤ s.retries)
    (hfail : ∀ i, i < k →
      failsRetryablyOn s.shouldRetryOn
        (s.providers.getD ((s.activeProvider + i) % s.providers.length)
          defaultEntry) p args)
    (hsucc : succeedsWith
      (s.providers.getD ((s.activeProvider + k) % s.providers.length)
        defaultEntry) p args v) :
    (compositeCall s p args).settlement = CallSettlement.success v ∧
    (compositeCall s p args).state.activeProvider =
      (s.activeProvider + k) % s.providers.length ∧
    (compositeCall s p args).state.providers = s.providers := by
  have h := _proxyCall_chain k s.retries s.activeProvider s.providers
    s.retries s.shouldRetryOn p args v ha hr hfail hsucc
  have hst : (_proxyCall s.retries s
      (s.providers.getD s.activeProvider defaultEntry) p args).state =
      ⟨s.retries, s.shouldRetryOn, (s.activeProvider + k) % s.providers.length,
        s.providers⟩ := h.1
  have hse : (_proxyCall s.retries s
      (s.providers.getD s.activeProvider defaultEntry) p args).settlement =
      CallSettlement.success v := h.2
  unfold compositeCall
  refine ⟨hse, ?_, ?_⟩
  · rw [hst]
  · rw [hst]

theorem C1_witness :
    (compositeCall C1state "syncSpeak" []).settlement =
      CallSettlement.success (JsValue.str "woof") ∧
    (compositeCall C1state "syncSpeak" []).state.activeProvider = (0 + 1) % 2 ∧
    (compositeCall C1state "syncSpeak" []).state.providers = C1state.providers := by
  have h := C1_failover_chain_success C1state "syncSpeak" [] 1 (JsValue.str "woof")
    (by decide) (by decide) (by decide)
    (by
      intro i hi
      have hi0 : i = 0 := by omega
      subst hi0
      exact ⟨_, rfl, Or.inl ⟨JsValue.errorObj "boom", 5, rfl, rfl⟩⟩)
    ⟨_, rfl, Or.inl ⟨3, rfl⟩⟩
  exact h

/-- C2: every logical call through the composite performs at most
`1 + retries` attempts, and whenever it settles with an error, that error is
exactly the error raised by the last attempted provider (the last recorded
attempt), unchanged — never an error of a provider that was not attempted
and never a synthesised failover error. -/
theorem C2_attempt_bound_and_verbatim_last_error (s : FailoverProviderState)
    (p : String) (args : List JsValue) :
    (compositeCall s p args).attempts.length ≤ 1 + s.retries ∧
    ∀ e, (compositeCall s p args).settlement = CallSettlement.failure e →
      ∃ pre a, (compositeCall s p args).attempts = pre ++ [a] ∧
        a.errOf = some e := by
  constructor
  · unfold compositeCall
    exact _proxyCall_attempts_length s.retries s
      (s.providers.getD s.activeProvider defaultEntry) p args
  · intro e hf
    unfold compositeCall at hf ⊢
    exact _proxyCall_failure_last s.retries s
      (s.providers.getD s.activeProvider defaultEntry) p args e hf

theorem C2_witness :
    (compositeCall C2state "syncSpeak" []).attempts.length ≤ 1 + C2state.retries ∧
    ∃ pre a, (compositeCall C2state "syncSpeak" []).attempts = pre ++ [a] ∧
      a.errOf = some (JsValue.errorObj "boom") := by
  have h := C2_attempt_bound_and_verbatim_last_error C2state "syncSpeak" []
  exact ⟨h.1, h.2 (JsValue.errorObj "boom") (by decide)⟩

/-- C3: with a non-empty registry and an in-bounds active index, `_switch`
advances the active index by one modulo the registry size exactly when the
entry at the active index carries the failed entry's identifier, leaves the
index untouched otherwise, returns the entry at the (possibly new) active
index in both cases, and — with unique identifiers — two consecutive failure
notifications carrying the same pre-failure identity advance the index by
exactly one net position, not two. -/
theorem C3_switch_contract (s : FailoverProviderState) (failed : Entry)
    (ha : s.activeProvider < s.providers.length) :
    (failed.id = (s.providers.getD s.activeProvider defaultEntry).id →
      (_switch s failed).1.activeProvider =
        (s.activeProvider + 1) % s.providers.length) ∧
    (¬ failed.id = (s.providers.getD s.activeProvider defaultEntry).id →
      (_switch s failed).1 = s) ∧
    ((_switch s failed).2 =
      (_switch s failed).1.providers.getD (_switch s failed).1.activeProvider
        defaultEntry) ∧
    ((s.providers.map Entry.id).Nodup →
      failed.id = (s.providers.getD s.activeProvider defaultEntry).id →
      (_switch (_switch s failed).1 failed).1.activeProvider =
        (s.activeProvider + 1) % s.providers.length) := by
  have hN : 0 < s.providers.length := Nat.lt_of_le_of_lt (Nat.zero_le _) ha
  refine ⟨?_, ?_, rfl, ?_⟩
  · intro hc
    rw [_switch_eq_pos s failed hc]
  · intro hc
    rw [_switch_eq_neg s failed hc]
  · intro hnd hc
    rw [_switch_eq_pos s failed hc]
    by_cases h1 : s.providers.length = 1
    · by_cases hc2 : failed.id =
          ((({ s with activeProvider :=
            (s.activeProvider + 1) % s.providers.length } :
              FailoverProviderState)).providers.getD
            ((s.activeProvider + 1) % s.providers.length) defaultEntry).id
      · rw [_switch_eq_pos _ failed hc2]
        simp [h1, Nat.mod_one]
      · rw [_switch_eq_neg _ failed hc2]
    · have h2 : 2 ≤ s.providers.length := by omega
      have ha1lt : (s.activeProvider + 1) % s.providers.length <
          s.providers.length := Nat.mod_lt _ hN
      have hne1 : (s.activeProvider + 1) % s.providers.length ≠
          s.activeProvider := by
        rcases Nat.lt_or_ge (s.activeProvider + 1) s.providers.length with
          hlt | hge
        · rw [Nat.mod_eq_of_lt hlt]
          omega
        · have hEq : s.activeProvider + 1 = s.providers.length := by omega
          rw [hEq, Nat.mod_self]
          omega
      have hmapb1 : (s.activeProvider + 1) % s.providers.length <
          (s.providers.map Entry.id).length := by simpa using ha1lt
      have hmapb2 : s.activeProvider < (s.providers.map Entry.id).length := by
        simpa using ha
      have hidn :
          (s.providers.getD ((s.activeProvider + 1) % s.providers.length)
            defaultEntry).id ≠
          (s.providers.getD s.activeProvider defaultEntry).id := by
        intro heq
        rw [List.getD_eq_getElem s.providers defaultEntry ha1lt,
          List.getD_eq_getElem s.providers defaultEntry ha] at heq
        have hm1 : (s.providers.map Entry.id)[(s.activeProvider + 1) %
            s.providers.length] =
            (s.providers[(s.activeProvider + 1) % s.providers.length]).id := by
          simp
        have hm2 : (s.providers.map Entry.id)[s.activeProvider] =
            (s.providers[s.activeProvider]).id := by
          simp
        have hinj := (List.Nodup.getElem_inj_iff hnd).mp
          (hm1.trans (heq.trans hm2.symm))
        exact hne1 hinj
      have hc2 : ¬ failed.id =
          ((({ s with activeProvider :=
            (s.activeProvider + 1) % s.providers.length } :
              FailoverProviderState)).providers.getD
            ((s.activeProvider + 1) % s.providers.length) defaultEntry).id := by
        intro hcontra
        exact hidn (by rw [← hcontra, hc])
      rw [_switch_eq_neg _ failed hc2]

theorem C3_witness :
    (_switch C3state C3failed).1.activeProvider = (0 + 1) % 2 ∧
    (_switch (_switch C3state C3failed).1 C3failed).1.activeProvider =
      (0 + 1) % 2 := by
  have h := C3_switch_contract C3state C3failed (by decide)
  exact ⟨h.1 rfl, h.2.2.2 (by decide) rfl⟩

/-- C4: a member access whose lookup on the active provider itself throws is
handled exactly like an invocation failure.  First triple: on the access
path, when budget remains and the policy accepts the error the engine
advances via the identity-checked `_switch` and retries the access with the
budget decremented by one, and otherwise (policy rejects, or budget
exhausted) the lookup error propagates.  Second triple: replacing a throwing
getter by a method throwing the same error (access-equivalent
configurations) yields the same settlement, the same final active index and
the same sequence of attempted entry identifiers — failing getters fail over
identically to failing methods. -/
theorem C4_getter_failover_like_method (r : Nat)
    (s s' : FailoverProviderState) (t t' : Entry) (p : String)
    (args : List JsValue) (e : JsValue)
    (hgetter : t.provider p = Member.getterThrow e)
    (hR : s.retries = s'.retries)
    (hpol : s.shouldRetryOn = s'.shouldRetryOn)
    (ha : s.activeProvider = s'.activeProvider)
    (hP : List.Forall₂ (accessEquiv p args) s.providers s'.providers)
    (ht : accessEquiv p args t t') :
    ((s.shouldRetryOn e = true →
        _proxyGet (r + 1) s t p = _proxyGet r (_switch s t).1 (_switch s t).2 p) ∧
      (s.shouldRetryOn e = false →
        _proxyGet (r + 1) s t p = (s, ProxyResult.thrown e)) ∧
      _proxyGet 0 s t p = (s, ProxyResult.thrown e)) ∧
    ((_proxyCall r s t p args).settlement =
        (_proxyCall r s' t' p args).settlement ∧
      (_proxyCall r s t p args).state.activeProvider =
        (_proxyCall r s' t' p args).state.activeProvider ∧
      (_proxyCall r s t p args).attempts.map Attempt.entryId =
        (_proxyCall r s' t' p args).attempts.map Attempt.entryId) := by
  refine ⟨⟨?_, ?_, ?_⟩, _proxyCall_accessEquiv r s s' t t' p args hR hpol ha hP ht⟩
  · intro hb
    simp [_proxyGet, hgetter, hb]
  · intro hb
    simp [_proxyGet, hgetter, hb]
  · simp [_proxyGet, hgetter]

theorem C4_witness :
    (_proxyGet 1 C4stateGetter C4targetGetter "name" =
      _proxyGet 0 (_switch C4stateGetter C4targetGetter).1
        (_switch C4stateGetter C4targetGetter).2 "name") ∧
    (_proxyCall 1 C4stateGetter C4targetGetter "name" []).settlement =
      (_proxyCall 1 C4stateMethod C4targetMethod "name" []).settlement ∧
    (_proxyCall 1 C4stateGetter C4targetGetter "name" []).state.activeProvider =
      (_proxyCall 1 C4stateMethod C4targetMethod "name" []).state.activeProvider := by
  have h := C4_getter_failover_like_method 0 C4stateGetter C4stateMethod
    C4targetGetter C4targetMethod "name" [] (JsValue.errorObj "boom")
    rfl rfl rfl rfl
    (List.Forall₂.cons
      ⟨rfl, Or.inr ⟨JsValue.errorObj "boom",
        fun _ => CallOutcome.throwSync (JsValue.errorObj "boom") 2, 2,
        rfl, rfl, rfl⟩⟩
      (List.Forall₂.cons ⟨rfl, Or.inl rfl⟩ List.Forall₂.nil))
    ⟨rfl, Or.inr ⟨JsValue.errorObj "boom",
      fun _ => CallOutcome.throwSync (JsValue.errorObj "boom") 2, 2,
      rfl, rfl, rfl⟩⟩
  have h1 := C4_getter_failover_like_method 1 C4stateGetter C4stateMethod
    C4targetGetter C4targetMethod "name" [] (JsValue.errorObj "boom")
    rfl rfl rfl rfl
    (List.Forall₂.cons
      ⟨rfl, Or.inr ⟨JsValue.errorObj "boom",
        fun _ => CallOutcome.throwSync (JsValue.errorObj "boom") 2, 2,
        rfl, rfl, rfl⟩⟩
      (List.Forall₂.cons ⟨rfl, Or.inl rfl⟩ List.Forall₂.nil))
    ⟨rfl, Or.inr ⟨JsValue.errorObj "boom",
      fun _ => CallOutcome.throwSync (JsValue.errorObj "boom") 2, 2,
      rfl, rfl, rfl⟩⟩
  exact ⟨h.1.1 rfl, h1.2.1, h1.2.2.1⟩

/-- C5 counterexample: the default policy `(error) => error instanceof Error`
classifies the thrown string `"boom"` as non-retryable, so — despite a full
retry budget and a healthy next provider — the call propagates the string
after a single attempt.  This refutes the claim that the default policy
classifies every thrown error value as retryable. -/
theorem C5_counterexample :
    defaultShouldRetryOn (JsValue.str "boom") = false ∧
    (compositeCall C5state "speak" []).settlement =
      CallSettlement.failure (JsValue.str "boom") ∧
    (compositeCall C5state "speak" []).attempts.length = 1 ∧
    (compositeCall C5state "speak" []).state.activeProvider = 0 := by
  exact ⟨rfl, by decide, by decide, by decide⟩

/-- C5 (amended): the default policy classifies an error value as retryable
exactly when it is an `instanceof Error` object; thrown non-Error values
(undefined, numbers, strings, booleans) are not retried. -/
theorem C5_default_policy_instanceof_error :
    (∀ msg, defaultShouldRetryOn (JsValue.errorObj msg) = true) ∧
    defaultShouldRetryOn JsValue.undef = false ∧
    (∀ n, defaultShouldRetryOn (JsValue.num n) = false) ∧
    (∀ st, defaultShouldRetryOn (JsValue.str st) = false) ∧
    (∀ b, defaultShouldRetryOn (JsValue.boolean b) = false) :=
  ⟨fun _ => rfl, rfl, fun _ => rfl, fun _ => rfl, fun _ => rfl⟩

/-- C6 counterexample: the dispatched call completes an invocation attempt
against entry `"c"` whose measured duration is 7 ms, yet the entry's stored
latency field still holds its initial `0` afterwards — the engine contains
no latency-recording code, refuting the claim that the field is updated to
the measured duration after every completed attempt and is zero only until
the first completed attempt. -/
theorem C6_counterexample :
    (compositeCall C6state "syncSpeak" []).attempts =
      [⟨"c", AttemptOutcome.invoked (CallOutcome.retSync (JsValue.str "meow") 7)⟩] ∧
    (compositeCall C6state "syncSpeak" []).state.providers.map Entry.ms = [0] := by
  exact ⟨by decide, by decide⟩

/-- C6 (amended): the latency field of an entry is set to `0` at
registration and is never mutated by dispatch — neither by a full call nor
by a property access — so it remains `0` after every completed attempt. -/
theorem C6_latency_never_updated (s : FailoverProviderState) (p : String)
    (args : List JsValue) (draws : List Nat) (provider : String → Member) :
    (compositeCall s p args).state.providers.map Entry.ms =
      s.providers.map Entry.ms ∧
    (compositeGet s p).1.providers.map Entry.ms = s.providers.map Entry.ms ∧
    (addProvider s draws provider).1.providers.map Entry.ms =
      s.providers.map Entry.ms ++ [0] := by
  refine ⟨?_, ?_, ?_⟩
  · unfold compositeCall
    rw [(_proxyCall_frame s.retries s
      (s.providers.getD s.activeProvider defaultEntry) p args).1]
  · unfold compositeGet
    rw [(_proxyGet_frame s.retries s
      (s.providers.getD s.activeProvider defaultEntry) p).1]
  · rw [addProvider_eq]
    simp

/-- C7 counterexample: registration at a concrete state returns the
`FailoverProvider` instance itself (`return this`), not the freshly
generated entry identifier — the returned value is not an identifier string
at all, refuting the claim that registration returns the new entry's
identifier. -/
theorem C7_counterexample :
    RegisterRet.isIdString (addProvider C7state C7draws boomProvider).2 = false ∧
    (addProvider C7state C7draws boomProvider).2 =
      RegisterRet.self (addProvider C7state C7draws boomProvider).1 ∧
    ((addProvider C7state C7draws boomProvider).1.providers.map Entry.id =
      ["123456789012"]) := by
  refine ⟨?_, ?_, ?_⟩
  · rw [addProvider_eq]
    rfl
  · rw [addProvider_eq]
  · rw [addProvider_eq]
    simp [C7state, newFailoverProvider, C7draws]
    rfl

/-- C7 (amended): registration never fails for a well-formed provider: it
appends to the end of the sequence a new entry holding the provider with the
freshly generated identifier and zero latency, leaves all previously
registered entries, the active index, the budget and the policy unchanged,
and returns the `FailoverProvider` instance itself (for chaining) — not the
entry's identifier, which is only stored in the appended entry for later
active-provider comparison. -/
theorem C7_addProvider_contract (s : FailoverProviderState)
    (draws : List Nat) (provider : String → Member) :
    (addProvider s draws provider).1.providers =
      s.providers ++ [⟨uidGo draws "" 12, provider, 0⟩] ∧
    (addProvider s draws provider).1.activeProvider = s.activeProvider ∧
    (addProvider s draws provider).1.retries = s.retries ∧
    (addProvider s draws provider).1.shouldRetryOn = s.shouldRetryOn ∧
    (addProvider s draws provider).2 =
      RegisterRet.self (addProvider s draws provider).1 := by
  rw [addProvider_eq]
  exact ⟨rfl, rfl, rfl, rfl, rfl⟩

/-- C8: in every reachable state with a non-empty provider sequence the
active index is a valid index into the sequence (`0 ≤` holds by the index
being a natural number).  `Reachable` closes over every operation —
construction, registration, and dispatch (which performs the modulo-wrapping
failover advancement) — so all of them preserve the invariant. -/
theorem C8_active_index_invariant (s : FailoverProviderState)
    (h : Reachable s) (hne : s.providers ≠ []) :
    s.activeProvider < s.providers.length := by
  rcases reachable_inv s h with hlt | ⟨hemp, _⟩
  · exact hlt
  · exact absurd hemp hne

theorem C8_witness : C8state.activeProvider < C8state.providers.length := by
  have hr : Reachable C8state :=
    Reachable.dispatchCall _ "syncSpeak" []
      (Reachable.register _ [3, 4] dogProvider
        (Reachable.register _ [1, 2] boomProvider
          (Reachable.construct 3 defaultShouldRetryOn)))
      (by simp [addProvider_eq, newFailoverProvider])
  refine C8_active_index_invariant C8state hr ?_
  intro hemp
  have hlen : C8state.providers.length = 2 := by decide
  rw [hemp] at hlen
  simp at hlen

/-- C9: producing the composite object fails exactly when no provider has
been registered: on an empty registry `initialize` raises the configuration
error immediately (no retry machinery is involved), and on a non-empty
registry it succeeds and returns the composite wrapper built around the
first registered provider. -/
theorem C9_initialize_iff_nonempty (s : FailoverProviderState) :
    (mkCompositeOk s = !s.providers.isEmpty) ∧
    (s.providers = [] → mkComposite s = Except.error (JsValue.errorObj
      "Cannot initialize an empty provider. Call `addProvider` before this function.")) ∧
    (∀ en rest, s.providers = en :: rest →
      mkComposite s = Except.ok en.provider) := by
  refine ⟨?_, ?_, ?_⟩
  · cases hp : s.providers with
    | nil => simp [mkCompositeOk, mkComposite, hp]
    | cons en rest => simp [mkCompositeOk, mkComposite, hp]
  · intro hp
    simp [mkComposite, hp]
  · intro en rest hp
    simp [mkComposite, hp]

theorem C9_witness :
    mkComposite (newFailoverProvider 3 defaultShouldRetryOn) =
      Except.error (JsValue.errorObj
        "Cannot initialize an empty provider. Call `addProvider` before this function.") ∧
    mkComposite C9state = Except.ok boomProvider := by
  constructor
  · exact (C9_initialize_iff_nonempty
      (newFailoverProvider 3 defaultShouldRetryOn)).2.1 rfl
  · exact (C9_initialize_iff_nonempty C9state).2.2 ⟨"a", boomProvider, 0⟩ [] rfl

/-- C10: dispatch never mutates anything but the active index — the provider
sequence (hence every entry's identifier, wrapped provider reference and
latency field), the retries bound and the policy survive every dispatched
access unchanged, on both the call path and the pure access path — and an
access whose first attempt succeeds (a plain property value, or a member
function that returns or resolves on the first invocation) leaves the whole
state, active index included, unchanged: no rotation on success. -/
theorem C10_dispatch_frame (s : FailoverProviderState) (p : String)
    (args : List JsValue) :
    (compositeCall s p args).state.providers = s.providers ∧
    (compositeCall s p args).state.retries = s.retries ∧
    (compositeCall s p args).state.shouldRetryOn = s.shouldRetryOn ∧
    (compositeGet s p).1.providers = s.providers ∧
    (compositeGet s p).1.retries = s.retries ∧
    (compositeGet s p).1.shouldRetryOn = s.shouldRetryOn ∧
    (∀ v, (s.providers.getD s.activeProvider defaultEntry).provider p =
        Member.value v → (compositeCall s p args).state = s) ∧
    (∀ f v d, (s.providers.getD s.activeProvider defaultEntry).provider p =
        Member.func f →
      (f args = CallOutcome.retSync v d ∨
        f args = CallOutcome.resolveAsync v d) →
      (compositeCall s p args).state = s) := by
  have hc := _proxyCall_frame s.retries s
    (s.providers.getD s.activeProvider defaultEntry) p args
  have hg := _proxyGet_frame s.retries s
    (s.providers.getD s.activeProvider defaultEntry) p
  unfold compositeCall compositeGet
  refine ⟨hc.1, hc.2.1, hc.2.2, hg.1, hg.2.1, hg.2.2, ?_, ?_⟩
  · intro v hm
    cases hr : s.retries with
    | zero => simp only [_proxyCall, hm]
    | succ n => simp only [_proxyCall, hm]
  · intro f v d hm ho
    cases hr : s.retries with
    | zero => rcases ho with ho | ho <;> simp only [_proxyCall, hm, ho]
    | succ n => rcases ho with ho | ho <;> simp only [_proxyCall, hm, ho]

theorem C10_witness :
    (compositeCall C10state "syncSpeak" []).state = C10state ∧
    (compositeCall C10state "syncSpeak" []).state.providers =
      C10state.providers := by
  have h := C10_dispatch_frame C10state "syncSpeak" []
  exact ⟨h.2.2.2.2.2.2.2 (fun _ => CallOutcome.retSync (JsValue.str "meow") 7)
    (JsValue.str "meow") 7 rfl (Or.inl rfl), h.1⟩
